import Mathlib

/-
Verification of the event-parsing pipeline and the metrics record model of
the powertools-lambda-typescript repository.

The repository source under `src/packages/parser/src/parserDecorator.ts`
contains the `parser` handler decorator and the metrics type definitions
(`StoredMetric`, `EmfOutput`, ...). The `parse` orchestrator, the schema
validator, the envelope extractor and the metrics operations `addMetric`
and `serialize` are declared or invoked there but their code is not part of
the shown sources, so they are modelled from the specification (each such
definition carries a doc comment starting `Modelled from the spec:`).

Dynamic (JavaScript `unknown`) values are embedded as a type parameter `V`:
the pipeline never inspects the values it routes, it only threads them
through validators and envelopes, so every statement is polymorphic in `V`.
-/

namespace Powertools

/-- Modelled from the spec: `ValidationFailure` (§4.1, §7) carries a
machine-readable list of field-level issues, each a field path plus a
message. -/
structure ValidationFailure where
  issues : List (List String × String)
deriving DecidableEq, Repr

/-- Modelled from the spec: the error taxonomy of §7 as seen by the parse
orchestrator. `validation` is a schema mismatch (`ValidationFailure`);
`envelope` is an `EnvelopeFailure`, i.e. an envelope that fails or throws
for a reason other than schema validation (malformed, undeserializable
input). -/
inductive ParseFailure where
  | validation (failure : ValidationFailure)
  | envelope (message : String)
deriving DecidableEq, Repr

/-- Modelled from the spec: the Schema Validator capability contract (§4.1):
`validate(schema, candidate) -> Result<T, ValidationFailure>`, a pure
function over its inputs that never throws in validator-internal use. -/
structure Schema (V : Type) where
  validate : V → Except ValidationFailure V

/-- Modelled from the spec: the Envelope Extractor capability contract
(§4.2): `unwrap(schema, rawEvent) -> T | T[]`, failing by propagating a
validation failure when the raw event's shape does not match the transport
envelope or an unwrapped payload fails schema validation, and possibly
failing for non-validation reasons (`ParseFailure.envelope`). -/
structure Envelope (V : Type) where
  unwrap : Schema V → V → Except ParseFailure V

/-- Embeds `ParserOptions` (spec §3 and `parserDecorator.ts`):
`{schema, envelope?, safeParse?}`, immutable configuration supplied once
per wrapped handler. An absent `safeParse` is `none`. -/
structure ParserOptions (V : Type) where
  schema : Schema V
  envelope : Option (Envelope V)
  safeParse : Option Bool

/-- Embeds `ParsedResult<T>` (spec §3): discriminated union materialized in
safe mode only; on failure it retains the pre-parse input verbatim in
`originalEvent`. -/
inductive ParsedResult (V : Type) where
  | success (data : V)
  | failure (error : ParseFailure) (originalEvent : V)
deriving DecidableEq, Repr

/-- The value returned by a completed `parse` call: a bare validated value
in strict mode, a `ParsedResult` in safe mode (spec §4.3 contract
`parse(...) -> T | ParsedResult<T>`). -/
inductive ParseReturn (V : Type) where
  | strict (value : V)
  | safe (result : ParsedResult V)
deriving DecidableEq, Repr

/-- Modelled from the spec: step 1 of the Parse Orchestrator algorithm
(§4.3). If an envelope is supplied, delegate to the Envelope Extractor with
`(schema, rawEvent)`; otherwise validate `rawEvent` directly against the
schema (a direct validation failure is a `ParseFailure.validation`). -/
def parseAttempt {V : Type} (rawEvent : V) (envelope : Option (Envelope V))
    (schema : Schema V) : Except ParseFailure V :=
  match envelope with
  | some env => env.unwrap schema rawEvent
  | none =>
    match schema.validate rawEvent with
    | .ok validated => .ok validated
    | .error f => .error (.validation f)

/-- Modelled from the spec: the Parse Orchestrator `parse(rawEvent,
envelope, schema, safeParse)` (§4.3, missing from the shown sources).
`safeParse` defaults to false (strict mode) when omitted. On success,
strict mode returns the validated value directly and safe mode returns
`{success: true, data}`. On failure, strict mode propagates the failure as
a raised error (modelled as `Except.error`), while safe mode returns
`{success: false, error, originalEvent: rawEvent}` with the original
untouched raw event. -/
def parse {V : Type} (rawEvent : V) (envelope : Option (Envelope V))
    (schema : Schema V) (safeParse : Option Bool) :
    Except ParseFailure (ParseReturn V) :=
  if safeParse.getD false then
    match parseAttempt rawEvent envelope schema with
    | .ok validated => .ok (.safe (.success validated))
    | .error e => .ok (.safe (.failure e rawEvent))
  else
    match parseAttempt rawEvent envelope schema with
    | .ok validated => .ok (.strict validated)
    | .error e => .error e

/-- A concrete schema over `Nat` events used to instantiate the polymorphic
theorems: even numbers validate to themselves, odd numbers fail. -/
def evenSchema : Schema Nat :=
  ⟨fun n =>
    if n % 2 = 0 then .ok n else .error ⟨[([], "expected an even number")]⟩⟩

/-- A concrete envelope over `Nat` events used to instantiate the
polymorphic theorems: events below 100 do not match the transport shape
(the envelope fails for a non-validation reason), events at or above 100
unwrap to their last two digits, which are then validated. -/
def shiftEnvelope : Envelope Nat :=
  ⟨fun schema raw =>
    if raw < 100 then .error (.envelope "malformed transport event")
    else
      match schema.validate (raw % 100) with
      | .ok validated => .ok validated
      | .error f => .error (.validation f)⟩

/-- Embeds the `parser` decorator of `parserDecorator.ts` (lines 78-96):
the decorated method replaces the original handler with an async function
that computes `parse(event, envelope, schema, safeParse)` and then returns
`original.call(this, parsedEvent, context, callback)`. A synchronous throw
of `parse` rejects the decorated call (`Except.error`) and the original
handler is never invoked. `Th`, `Ctx`, `Cb` and `R` embed the `this`
binding, the context argument, the callback argument and the handler's
return value, all opaque to the decorator. -/
def decoratedHandler {V Th Ctx Cb R : Type}
    (original : Th → ParseReturn V → Ctx → Cb → R)
    (options : ParserOptions V)
    (this : Th) (event : V) (context : Ctx) (callback : Cb) :
    Except ParseFailure R :=
  match parse event options.envelope options.schema options.safeParse with
  | .ok parsedEvent => .ok (original this parsedEvent context callback)
  | .error e => .error e

/-- Execution steps observable while the decorated method of
`parserDecorator.ts` runs: the parse step completing with its outcome, and
the original handler body starting with the event value it received. -/
inductive TraceStep (V : Type) where
  | parseCompleted (result : Except ParseFailure (ParseReturn V))
  | handlerStarted (receivedEvent : ParseReturn V)
deriving Repr

/-- Embeds the statement order of the decorated method body in
`parserDecorator.ts` (lines 84-93): `const parsedEvent = parse(...)` runs
to completion first, then `original.call(this, parsedEvent, context,
callback)` starts. The function returns the emitted step sequence together
with the decorated call's outcome; when `parse` throws, the call rejects
and no handler step is emitted. -/
def decoratedTrace {V Th Ctx Cb R : Type}
    (original : Th → ParseReturn V → Ctx → Cb → R)
    (options : ParserOptions V)
    (this : Th) (event : V) (context : Ctx) (callback : Cb) :
    List (TraceStep V) × Except ParseFailure R :=
  match parse event options.envelope options.schema options.safeParse with
  | .ok parsedEvent =>
    ([.parseCompleted (.ok parsedEvent), .handlerStarted parsedEvent],
      .ok (original this parsedEvent context callback))
  | .error e => ([.parseCompleted (.error e)], .error e)

/-- Embeds `MetricUnit` from the metrics types: one of the unit name
strings of `MetricUnitList` in `constants.js` (not among the shown
sources), e.g. "Milliseconds". -/
abbrev MetricUnit := String

/-- Embeds `MetricResolution` from the metrics types: one of the numeric
resolution values of `MetricResolutionList` in `constants.js` (not among
the shown sources), i.e. 1 or 60. -/
abbrev MetricResolution := Nat

/-- Embeds the `value: number | number[]` field of `StoredMetric`: either a
single scalar observation or an ordered sequence of observations. The
numeric type is a parameter `N` (JavaScript numbers are opaque to the
accumulation logic). -/
inductive MetricValue (N : Type) where
  | scalar (n : N)
  | seq (ns : List N)
deriving DecidableEq, Repr

/-- Embeds `StoredMetric` from `parserDecorator.ts` (lines 166-171):
`{name, unit, value: number | number[], resolution}`. -/
structure StoredMetric (N : Type) where
  name : String
  unit : MetricUnit
  value : MetricValue N
  resolution : MetricResolution
deriving DecidableEq, Repr

/-- Embeds `StoredMetrics = Record<string, StoredMetric>`: an
insertion-ordered association from metric names to stored metrics,
mirroring JavaScript object key order. -/
abbrev StoredMetrics (N : Type) := List (String × StoredMetric N)

/-- The list of observations a stored value holds, in order: a scalar is a
single observation, a sequence holds them all. -/
def MetricValue.toList {N : Type} : MetricValue N → List N
  | .scalar n => [n]
  | .seq ns => ns

/-- Modelled from the spec: appending one further observation to an
existing stored value (§3, §4.4): the value converts from the scalar form
to the sequence form on the second observation and later observations
append to the sequence. -/
def MetricValue.append {N : Type} : MetricValue N → N → MetricValue N
  | .scalar a, b => .seq [a, b]
  | .seq ns, b => .seq (ns ++ [b])

/-- The stored metric under a given name, if any (first match in the
association list). -/
def lookupMetric {N : Type} (store : StoredMetrics N) (name : String) :
    Option (StoredMetric N) :=
  match store with
  | [] => none
  | (key, m) :: rest =>
    if key = name then some m else lookupMetric rest name

/-- Modelled from the spec: `addMetric(name, unit, value, resolution)`
(§4.4, not among the shown sources): if `name` is not yet present, create a
scalar entry; if present, convert to / append to the sequence form
(overwriting unit and resolution with the latest observation's, never
dropping earlier values). -/
def addMetric {N : Type} (store : StoredMetrics N) (name : String)
    (unit : MetricUnit) (value : N) (resolution : MetricResolution) :
    StoredMetrics N :=
  match store with
  | [] => [(name, ⟨name, unit, .scalar value, resolution⟩)]
  | (key, m) :: rest =>
    if key = name then
      (key, ⟨m.name, unit, m.value.append value, resolution⟩) :: rest
    else
      (key, m) :: addMetric rest name unit value resolution

/-- The ordered list of observations recorded under a name (empty when the
name is absent). -/
def observations {N : Type} (store : StoredMetrics N) (name : String) :
    List N :=
  match lookupMetric store name with
  | some m => m.value.toList
  | none => []

/-- Embeds `MetricDefinition` from the metrics types:
`{Name, Unit, StorageResolution?}`. -/
structure MetricDefinition where
  Name : String
  Unit : MetricUnit
  StorageResolution : Option MetricResolution
deriving DecidableEq, Repr

/-- Embeds one element of the `CloudWatchMetrics` array of `EmfOutput`
(`parserDecorator.ts` lines 128-132): `{Namespace: string, Dimensions:
[string[]], Metrics: MetricDefinition[]}`. The TypeScript type of
`Dimensions` is the one-element tuple `[string[]]`, embedded as a list of
dimension-key-name lists constrained to length one. -/
structure CloudWatchMetricsGroup where
  Namespace : String
  Dimensions : { ls : List (List String) // ls.length = 1 }
  Metrics : List MetricDefinition
deriving DecidableEq

/-- Embeds the `_aws` member of `EmfOutput` (`parserDecorator.ts` lines
126-133): `{Timestamp: number, CloudWatchMetrics: {...}[]}`. -/
structure AwsMetadata where
  Timestamp : Int
  CloudWatchMetrics : List CloudWatchMetricsGroup
deriving DecidableEq

/-- Embeds the type of a non-`_aws` top-level value of `EmfOutput`
(`string | number | object`): a dimension value string, a scalar metric
value or an array of metric values. -/
inductive EmfValue (N : Type) where
  | str (s : String)
  | num (n : N)
  | nums (ns : List N)
deriving DecidableEq, Repr

/-- Embeds `EmfOutput` from `parserDecorator.ts` (lines 124-134): a
read-only record with the fixed `_aws` member plus arbitrary further
top-level keys (`[key: string]: string | number | object`) holding the
flattened dimension and metric values. -/
structure EmfOutput (N : Type) where
  entries : List (String × EmfValue N)
  aws : AwsMetadata
deriving DecidableEq

/-- The top-level keys of an EMF record (besides `_aws`). -/
def topLevelKeys {N : Type} (output : EmfOutput N) : List String :=
  output.entries.map Prod.fst

/-- The EMF top-level representation of a stored value: a scalar becomes a
number, a sequence becomes an array of numbers. -/
def MetricValue.toEmf {N : Type} : MetricValue N → EmfValue N
  | .scalar n => .num n
  | .seq ns => .nums ns

/-- Modelled from the spec: `serialize(namespace, dimensions,
storedMetrics)` (§4.4, not among the shown sources): builds the fixed
`_aws` wrapper with one `CloudWatchMetrics` group naming the namespace,
the dimension key names and a `MetricDefinition` for every buffered metric
in insertion order, and flattens dimension key-value pairs alongside
metric values as top-level keys. -/
def serialize {N : Type} (ns : String) (dimensions : List (String × String))
    (metrics : StoredMetrics N) (timestamp : Int) : EmfOutput N :=
  ⟨dimensions.map (fun kv => (kv.1, EmfValue.str kv.2)) ++
      metrics.map (fun entry => (entry.1, entry.2.value.toEmf)),
    ⟨timestamp,
      [⟨ns, ⟨[dimensions.map Prod.fst], rfl⟩,
        metrics.map (fun entry =>
          ⟨entry.1, entry.2.unit, some entry.2.resolution⟩)⟩]⟩⟩

/-- Observations of an appended-to stored value are the earlier
observations followed by the new one. -/
theorem MetricValue.toList_append {N : Type} (v : MetricValue N) (x : N) :
    (v.append x).toList = v.toList ++ [x] := by
  cases v <;> rfl

/-- C1: for every raw event on which parsing fails (directly or through an
envelope), `parse` with `safeParse` true never raises and returns
`{success: false, error, originalEvent: rawEvent}` with the original
unmodified raw event. -/
theorem parse_safe_never_raises {V : Type} (rawEvent : V)
    (envelope : Option (Envelope V)) (schema : Schema V) :
    (∀ e, parse rawEvent envelope schema (some true) ≠ .error e) ∧
    (∀ e, parseAttempt rawEvent envelope schema = .error e →
      parse rawEvent envelope schema (some true) =
        .ok (.safe (.failure e rawEvent))) := by
  cases hA : parseAttempt rawEvent envelope schema with
  | ok v =>
    refine ⟨fun e h => ?_, fun e h => ?_⟩
    · simp [parse, hA] at h
    · exact absurd h (by simp)
  | error e0 =>
    refine ⟨fun e h => ?_, fun e h => ?_⟩
    · simp [parse, hA] at h
    · injection h with h
      subst h
      simp [parse, hA]

/-- Witness for C1: parsing the odd event 3 against the even-number schema
fails, and safe mode wraps the failure, keeping the raw event. -/
theorem parse_safe_never_raises_witness :
    parse 3 none evenSchema (some true) =
      .ok (.safe (.failure
        (.validation ⟨[([], "expected an even number")]⟩) 3)) :=
  (parse_safe_never_raises 3 none evenSchema).2 _ rfl

/-- C2: for every input that fails validation, `parse` with `safeParse`
false raises, propagating the failure with its diagnostics instead of
returning a value. -/
theorem parse_strict_raises_on_failure {V : Type} (rawEvent : V)
    (envelope : Option (Envelope V)) (schema : Schema V) (e : ParseFailure)
    (h : parseAttempt rawEvent envelope schema = .error e) :
    parse rawEvent envelope schema (some false) = .error e := by
  simp [parse, h]

/-- Witness for C2: strict-mode parsing of the odd event 3 raises the
validation failure with its diagnostics. -/
theorem parse_strict_raises_on_failure_witness :
    parse 3 none evenSchema (some false) =
      .error (.validation ⟨[([], "expected an even number")]⟩) :=
  parse_strict_raises_on_failure 3 none evenSchema _ rfl

/-- C3: for every input already matching the schema (the validator returns
it unchanged), `parse` with no envelope and `safeParse` false returns the
input itself unchanged. -/
theorem parse_identity_on_valid {V : Type} (rawEvent : V) (schema : Schema V)
    (h : schema.validate rawEvent = .ok rawEvent) :
    parse rawEvent none schema (some false) = .ok (.strict rawEvent) := by
  simp [parse, parseAttempt, h]

/-- Witness for C3: the even event 4 validates to itself and strict-mode
parsing returns it unchanged. -/
theorem parse_identity_on_valid_witness :
    parse 4 none evenSchema (some false) = .ok (.strict 4) :=
  parse_identity_on_valid 4 evenSchema rfl

/-- C4: an envelope failing for a reason other than schema validation is
treated exactly like a validation failure by the mode policy: strict mode
raises it and safe mode returns a `{success: false, ...}` result carrying
the original raw event; no such throw escapes safe mode. -/
theorem parse_envelope_failure_mode_policy {V : Type} (rawEvent : V)
    (env : Envelope V) (schema : Schema V) (msg : String)
    (h : env.unwrap schema rawEvent = .error (.envelope msg)) :
    parse rawEvent (some env) schema (some false) = .error (.envelope msg) ∧
    parse rawEvent (some env) schema (some true) =
      .ok (.safe (.failure (.envelope msg) rawEvent)) := by
  constructor <;> simp [parse, parseAttempt, h]

/-- Witness for C4: the event 3 does not match the transport shape of
`shiftEnvelope`; strict mode raises the envelope failure and safe mode
wraps it with the raw event. -/
theorem parse_envelope_failure_mode_policy_witness :
    parse 3 (some shiftEnvelope) evenSchema (some false) =
      .error (.envelope "malformed transport event") ∧
    parse 3 (some shiftEnvelope) evenSchema (some true) =
      .ok (.safe (.failure (.envelope "malformed transport event") 3)) :=
  parse_envelope_failure_mode_policy 3 shiftEnvelope evenSchema _ rfl

/-- C6: omitting `safeParse` behaves exactly like `safeParse = false`
(strict mode) on every input. -/
theorem parse_default_is_strict {V : Type} (rawEvent : V)
    (envelope : Option (Envelope V)) (schema : Schema V) :
    parse rawEvent envelope schema none =
      parse rawEvent envelope schema (some false) := rfl

/-- C5: whenever the original handler body starts during a decorated call,
the parse step has already fully completed, at an earlier position in the
execution trace, and the handler receives exactly the completed parse
result in place of the raw event. -/
theorem decorator_parse_precedes_handler {V Th Ctx Cb R : Type}
    (original : Th → ParseReturn V → Ctx → Cb → R)
    (options : ParserOptions V) (this : Th) (event : V) (context : Ctx)
    (callback : Cb) (k : Nat) (p : ParseReturn V)
    (h : (decoratedTrace original options this event context callback).1.get? k
      = some (.handlerStarted p)) :
    parse event options.envelope options.schema options.safeParse = .ok p ∧
    ∃ j, j < k ∧
      (decoratedTrace original options this event context callback).1.get? j
        = some (.parseCompleted (.ok p)) := by
  cases hP : parse event options.envelope options.schema options.safeParse with
  | error e =>
    simp only [decoratedTrace, hP] at h
    cases k with
    | zero => simp [List.get?] at h
    | succ k => simp [List.get?] at h
  | ok q =>
    simp only [decoratedTrace, hP] at h
    cases k with
    | zero => simp [List.get?] at h
    | succ k =>
      cases k with
      | zero =>
        have hq : q = p := by simpa [List.get?] using h
        subst hq
        refine ⟨rfl, 0, Nat.zero_lt_one, ?_⟩
        simp [decoratedTrace, hP, List.get?]
      | succ k => simp [List.get?] at h

/-- Witness for C5: decorating an identity-like handler with the
even-number schema in strict mode, the handler-start step at position 1 of
the trace is preceded by the completed parse at position 0. -/
theorem decorator_parse_precedes_handler_witness :
    parse 4 none evenSchema (some false) = .ok (.strict 4) ∧
    ∃ j, j < 1 ∧
      (decoratedTrace
          (fun (_ : Unit) (p : ParseReturn Nat) (_ : Unit) (_ : Unit) => p)
          ⟨evenSchema, none, some false⟩ () 4 () ()).1.get? j
        = some (.parseCompleted (.ok (.strict 4))) :=
  decorator_parse_precedes_handler
    (fun (_ : Unit) (p : ParseReturn Nat) (_ : Unit) (_ : Unit) => p)
    ⟨evenSchema, none, some false⟩ () 4 () () 1 (.strict 4) rfl

/-- C9: the decorator replaces only the event argument with the parse
result; the `this` binding, the context and the callback reach the original
handler unchanged, and the handler's return value is returned unchanged. -/
theorem decorator_forwards_arguments {V Th Ctx Cb R : Type}
    (original : Th → ParseReturn V → Ctx → Cb → R)
    (options : ParserOptions V) (this : Th) (event : V) (context : Ctx)
    (callback : Cb) (p : ParseReturn V)
    (h : parse event options.envelope options.schema options.safeParse = .ok p) :
    decoratedHandler original options this event context callback =
      .ok (original this p context callback) := by
  unfold decoratedHandler
  rw [h]

/-- Witness for C9: a handler returning its four arguments receives the
unchanged `this`, context and callback together with the parsed event. -/
theorem decorator_forwards_arguments_witness :
    decoratedHandler
        (fun (t : Bool) (p : ParseReturn Nat) (c : String) (cb : Int) =>
          (t, p, c, cb))
        ⟨evenSchema, none, some false⟩ true 4 "ctx" 7 =
      .ok (true, .strict 4, "ctx", 7) :=
  decorator_forwards_arguments _ _ true 4 "ctx" 7 (.strict 4) rfl

/-- C7: `addMetric` under an existing name appends and never overwrites:
the recorded observation list under a name grows by exactly the new value,
and a second observation under the same name turns the scalar form into the
two-element sequence of both observations in order. -/
theorem addMetric_appends_never_overwrites {N : Type} :
    (∀ (store : StoredMetrics N) (name : String) (unit : MetricUnit)
        (value : N) (resolution : MetricResolution),
      observations (addMetric store name unit value resolution) name =
        observations store name ++ [value]) ∧
    (∀ (name : String) (u1 u2 : MetricUnit) (v1 v2 : N)
        (r1 r2 : MetricResolution),
      (lookupMetric (addMetric (addMetric [] name u1 v1 r1) name u2 v2 r2)
          name).map StoredMetric.value = some (.seq [v1, v2])) := by
  constructor
  · intro store name unit value resolution
    induction store with
    | nil => simp [addMetric, observations, lookupMetric, MetricValue.toList]
    | cons head rest ih =>
      obtain ⟨key, m⟩ := head
      by_cases hkey : key = name
      · subst hkey
        simp [addMetric, observations, lookupMetric, MetricValue.toList_append]
      · simpa [addMetric, observations, lookupMetric, hkey] using ih
  · intro name u1 u2 v1 v2 r1 r2
    simp [addMetric, lookupMetric, MetricValue.append]

/-- C8: in the EMF record built by `serialize`, every metric name listed in
a `CloudWatchMetrics` group has a top-level key holding a value, and every
dimension key name listed in a group's `Dimensions` is a top-level key. -/
theorem serialize_references_have_keys {N : Type} (ns : String)
    (dimensions : List (String × String)) (metrics : StoredMetrics N)
    (timestamp : Int) (g : CloudWatchMetricsGroup)
    (hg : g ∈ (serialize ns dimensions metrics timestamp).aws.CloudWatchMetrics) :
    (∀ md ∈ g.Metrics, ∃ v,
      (md.Name, v) ∈ (serialize ns dimensions metrics timestamp).entries) ∧
    (∀ dl ∈ g.Dimensions.val, ∀ key ∈ dl,
      key ∈ topLevelKeys (serialize ns dimensions metrics timestamp)) := by
  have hgEq : g = ⟨ns, ⟨[dimensions.map Prod.fst], rfl⟩,
      metrics.map (fun entry =>
        ⟨entry.1, entry.2.unit, some entry.2.resolution⟩)⟩ := by
    simpa [serialize] using hg
  subst hgEq
  constructor
  · intro md hmd
    simp only [List.mem_map] at hmd
    obtain ⟨entry, hentry, hdef⟩ := hmd
    refine ⟨entry.2.value.toEmf, ?_⟩
    have : (entry.1, entry.2.value.toEmf) ∈
        metrics.map (fun entry => (entry.1, entry.2.value.toEmf)) :=
      List.mem_map_of_mem _ hentry
    subst hdef
    exact List.mem_append_right _ this
  · intro dl hdl key hkey
    simp only [List.mem_singleton] at hdl
    subst hdl
    simp only [List.mem_map] at hkey
    obtain ⟨kv, hkv, hfst⟩ := hkey
    have : (kv.1, (EmfValue.str kv.2 : EmfValue N)) ∈
        dimensions.map (fun kv => (kv.1, (EmfValue.str kv.2 : EmfValue N))) :=
      List.mem_map_of_mem _ hkv
    subst hfst
    exact List.mem_map_of_mem Prod.fst (List.mem_append_left _ this)

/-- Witness for C8: in the record serialized from one dimension pair and
one buffered metric, the listed metric name "latency" is a top-level key
holding a value. -/
theorem serialize_references_have_keys_witness :
    ∃ v, (("latency" : String), v) ∈
      (serialize "svc" [("service", "orders")]
        (addMetric ([] : StoredMetrics Nat) "latency" "Milliseconds" 10 60)
        0).entries :=
  (serialize_references_have_keys "svc" [("service", "orders")]
      (addMetric [] "latency" "Milliseconds" 10 60) 0
      ⟨"svc", ⟨[["service"]], rfl⟩, [⟨"latency", "Milliseconds", some 60⟩]⟩
      (by simp [serialize, addMetric])).1
    ⟨"latency", "Milliseconds", some 60⟩ (by simp)

/-- C10: every `CloudWatchMetrics` group of every EMF record carries
exactly one dimension-key-name list: its `Dimensions` member is a
one-element tuple, never an arbitrary-length list of dimension sets. -/
theorem emf_dimensions_single_list {N : Type} (output : EmfOutput N)
    (g : CloudWatchMetricsGroup)
    (_hg : g ∈ output.aws.CloudWatchMetrics) :
    g.Dimensions.val.length = 1 :=
  g.Dimensions.property

/-- Witness for C10: the single group of a concretely serialized record
carries exactly one dimension-key-name list. -/
theorem emf_dimensions_single_list_witness :
    (⟨"svc", ⟨[["service"]], rfl⟩,
        [⟨"latency", "Milliseconds", some 60⟩]⟩ :
      CloudWatchMetricsGroup).Dimensions.val.length = 1 :=
  emf_dimensions_single_list
    (serialize "svc" [("service", "orders")]
      (addMetric ([] : StoredMetrics Nat) "latency" "Milliseconds" 10 60) 0)
    _ (by simp [serialize, addMetric])

end Powertools
